import Mathlib

/-!
Shallow embedding of the XMODEM protocol implementation found in
`src/lib/xmodem/src/lib.rs`.

Bytes are natural numbers (the code keeps them in `u8`, and every value the
embedding stores is below 256).  The duplex channel owned by a session is a
pair of byte lists: `input` holds the bytes the session will read from the
peer, in order; `output` holds the bytes the session has written to the
peer, oldest first.  Reading from an exhausted `input` models `read_exact`
hitting end-of-stream and fails with the `UnexpectedEof` error kind.
Fallible operations return an `Except ErrorKind` result paired with the
state after the call, so that bytes written before a failure remain
observable, exactly as they do on the real channel.
-/

namespace Xmodem

def SOH : Nat := 0x01
def EOT : Nat := 0x04
def ACK : Nat := 0x06
def NAK : Nat := 0x15
def CAN : Nat := 0x18

/-- Error kinds of `io::Error` that the library produces (`shim::io`
re-exports the standard library's error kinds).  `outOfFuel` is not an
error of the code: it marks the point where the fuel bound of the
receiver's outer loop is exhausted, modelling a run that would keep
blocking on the channel; the theorems below never produce it. -/
inductive ErrorKind where
  | invalidData
  | interrupted
  | connectionAborted
  | brokenPipe
  | unexpectedEof
  | outOfFuel
  deriving DecidableEq, Repr

/-- State of a session: the `packet` and `started` fields of `Xmodem<R>`
together with the enclosed channel (`inner`). -/
structure XSt where
  packet : Nat
  started : Bool
  input : List Nat
  output : List Nat
  deriving DecidableEq, Repr

/-- Embeds `Xmodem::new` / `new_with_progress`: `packet` starts at 1 and
`started` at false.  The progress callback defaults to a no-op and has no
observable effect, so it is not part of the state. -/
def new (chanInput : List Nat) : XSt :=
  { packet := 1, started := false, input := chanInput, output := [] }

/-- Embeds `read_byte`: reads a single byte from the inner stream; if
`abortOnCan` is set and the byte is CAN, fails with `ConnectionAborted`. -/
def read_byte (abortOnCan : Bool) (st : XSt) : Except ErrorKind Nat × XSt :=
  match st.input with
  | [] => (.error .unexpectedEof, st)
  | b :: rest =>
    let st1 : XSt := { st with input := rest }
    if abortOnCan = true ∧ b = CAN then (.error .connectionAborted, st1)
    else (.ok b, st1)

/-- Embeds `write_byte` (a `write_all` of one byte; the channel model never
fails a write). -/
def write_byte (b : Nat) (st : XSt) : XSt :=
  { st with output := st.output ++ [b] }

/-- Embeds `read_exact` into a buffer of length `n`: consumes exactly `n`
bytes of input, failing with `UnexpectedEof` when fewer are available. -/
def read_exact (n : Nat) (st : XSt) : Except ErrorKind (List Nat) × XSt :=
  if st.input.length < n then (.error .unexpectedEof, st)
  else (.ok (st.input.take n), { st with input := st.input.drop n })

/-- Embeds `expect_byte`: reads a byte (with abort-on-CAN active unless the
expected byte is itself CAN) and requires it to equal `byte`; on mismatch
writes CAN and fails with `InvalidData`. -/
def expect_byte (byte : Nat) (st : XSt) : Except ErrorKind Nat × XSt :=
  match (if byte = CAN then read_byte false st else read_byte true st) with
  | (.error e, st1) => (.error e, st1)
  | (.ok b, st1) =>
    if b ≠ byte then (.error .invalidData, write_byte CAN st1)
    else (.ok b, st1)

/-- Embeds `expect_byte_or_cancel`: reads a byte without abort-on-CAN; on
mismatch writes CAN back, then fails with `ConnectionAborted` when the byte
read was CAN and with `InvalidData` otherwise.  (The sessions in the source
never call this helper; it is embedded for completeness.) -/
def expect_byte_or_cancel (byte : Nat) (st : XSt) : Except ErrorKind Nat × XSt :=
  match read_byte false st with
  | (.error e, st1) => (.error e, st1)
  | (.ok b, st1) =>
    if b ≠ byte then
      let st2 := write_byte CAN st1
      if b = CAN then (.error .connectionAborted, st2)
      else (.error .invalidData, st2)
    else (.ok b, st1)

/-- Embeds `get_checksum`: fold of `u8::wrapping_add` over the buffer,
starting from 0. -/
def get_checksum (buf : List Nat) : Nat :=
  buf.foldl (fun a b => (a + b) % 256) 0

/-- Embeds `read_packet`.  The caller's buffer is passed as a list (its
length is the Rust buffer's length, its elements its current contents) and
the buffer after the call is returned alongside the result, since
`read_exact(buf)` overwrites it. -/
def read_packet (buf : List Nat) (st : XSt) :
    Except ErrorKind Nat × List Nat × XSt :=
  if buf.length < 128 then (.error .unexpectedEof, buf, st)
  else
    match read_byte true st with
    | (.error e, st1) => (.error e, buf, st1)
    | (.ok first, st1) =>
      if first = EOT then
        let st2 := write_byte NAK st1
        match expect_byte EOT st2 with
        | (.error e, st3) => (.error e, buf, st3)
        | (.ok _, st3) => (.ok 0, buf, write_byte ACK st3)
      else if first ≠ SOH then
        match read_byte false st1 with
        | (.error e, st2) => (.error e, buf, st2)
        | (.ok second, st2) =>
          let st3 := write_byte CAN st2
          if second = CAN then (.error .connectionAborted, buf, st3)
          else (.error .invalidData, buf, st3)
      else
        match read_byte true st1 with
        | (.error e, st2) => (.error e, buf, st2)
        | (.ok pktNum, st2) =>
          match read_byte true st2 with
          | (.error e, st3) => (.error e, buf, st3)
          | (.ok pktNumComp, st3) =>
            if pktNum ≠ st3.packet ∨ pktNumComp ≠ 255 - st3.packet then
              (.error .invalidData, buf, write_byte CAN st3)
            else
              match read_exact buf.length st3 with
              | (.error e, st4) => (.error e, buf, st4)
              | (.ok payload, st4) =>
                let checksum := get_checksum payload
                match read_byte false st4 with
                | (.error e, st5) => (.error e, payload, st5)
                | (.ok transmitted, st5) =>
                  if checksum ≠ transmitted then
                    (.error .interrupted, payload, write_byte NAK st5)
                  else
                    let st6 := write_byte ACK st5
                    (.ok 128, payload,
                      { st6 with packet := (st6.packet + 1) % 256 })

/-- Embeds `write_packet`.  An empty buffer triggers the EOT handshake
(consuming the pending initial NAK first when the session has not started);
otherwise the frame `SOH, seq, 255 - seq, buf…, checksum` is written and a
single response byte is awaited. -/
def write_packet (buf : List Nat) (st : XSt) : Except ErrorKind Nat × XSt :=
  if buf = [] then
    match (if st.started = false then
             match expect_byte NAK st with
             | (.error e, st1) => (.error e, st1)
             | (.ok _, st1) => (.ok 0, { st1 with started := true })
           else (.ok 0, st) : Except ErrorKind Nat × XSt) with
    | (.error e, st1) => (.error e, st1)
    | (.ok _, st1) =>
      let st2 := write_byte EOT st1
      match expect_byte NAK st2 with
      | (.error e, st3) => (.error e, st3)
      | (.ok _, st3) =>
        let st4 := write_byte EOT st3
        match expect_byte ACK st4 with
        | (.error e, st5) => (.error e, st5)
        | (.ok _, st5) => (.ok 0, st5)
  else
    let st1 := write_byte SOH st
    let st2 := write_byte st.packet st1
    let st3 := write_byte (255 - st.packet) st2
    let st4 : XSt := { st3 with output := st3.output ++ buf }
    let st5 := write_byte (get_checksum buf) st4
    match read_byte true st5 with
    | (.error e, st6) => (.error e, st6)
    | (.ok response, st6) =>
      if response = NAK then (.error .interrupted, st6)
      else if response ≠ ACK then (.error .invalidData, st6)
      else (.ok buf.length, { st6 with packet := (st6.packet + 1) % 256 })

/-- Result of the sender's bounded retry loop over `write_packet`. -/
inductive TryResult where
  | ok (st : XSt)
  | fail (e : ErrorKind) (st : XSt)
  deriving DecidableEq, Repr

/-- Embeds the `for _ in 0..10` retry loop of `transmit_with_progress`:
an `Interrupted` failure is retried, any other failure aborts, and when all
attempts are interrupted the loop falls through to a `BrokenPipe` error. -/
def try_send : Nat → List Nat → XSt → TryResult
  | 0, _, st => .fail .brokenPipe st
  | k + 1, pkt, st =>
    match write_packet pkt st with
    | (.error .interrupted, st1) => try_send k pkt st1
    | (.error e, st1) => .fail e st1
    | (.ok _, st1) => .ok st1

/-- Embeds the `'next_packet` loop of `transmit_with_progress`.  Modelled
from the spec: the data source is a byte list and `read_max` (whose source
file `read_ext.rs` is not in the repository snapshot) reads up to 128 bytes
from it — "read up to 128 bytes from the source; if zero bytes were read,
data is exhausted".  The chunk is zero-padded to 128 bytes before framing. -/
def transmit_loop (data : List Nat) (written : Nat) (st : XSt) :
    Except ErrorKind Nat × XSt :=
  if (data.take 128).length = 0 then
    let st1 := write_byte EOT st
    match expect_byte NAK st1 with
    | (.error e, st2) => (.error e, st2)
    | (.ok _, st2) =>
      let st3 := write_byte EOT st2
      match expect_byte ACK st3 with
      | (.error e, st4) => (.error e, st4)
      | (.ok _, st4) => (.ok written, st4)
  else
    let packet := data.take 128 ++ List.replicate (128 - (data.take 128).length) 0
    match try_send 10 packet st with
    | .ok st1 => transmit_loop (data.drop 128) (written + (data.take 128).length) st1
    | .fail e st1 => (.error e, st1)
termination_by data.length
decreasing_by
  simp only [List.length_drop]
  have h2 : (List.take 128 data).length = min 128 data.length :=
    List.length_take 128 data
  omega

/-- Embeds `transmit_with_progress`: build a fresh session over the
channel, wait for the initial handshake byte and require NAK, then run the
packet loop. -/
def transmit_with_progress (data : List Nat) (chanInput : List Nat) :
    Except ErrorKind Nat × XSt :=
  let st0 := new chanInput
  match read_byte true st0 with
  | (.error e, st1) => (.error e, st1)
  | (.ok initial, st1) =>
    if initial ≠ NAK then (.error .invalidData, st1)
    else transmit_loop data 0 { st1 with started := true }

/-- Embeds `transmit` (which is `transmit_with_progress` with a no-op
progress callback). -/
def transmit (data : List Nat) (chanInput : List Nat) :
    Except ErrorKind Nat × XSt :=
  transmit_with_progress data chanInput

/-- Result of one slot of the receiver's bounded retry loop. -/
inductive RecvTry where
  | eot (buf : List Nat) (st : XSt)
  | got (n : Nat) (buf : List Nat) (st : XSt)
  | fail (e : ErrorKind) (buf : List Nat) (st : XSt)
  deriving DecidableEq, Repr

/-- Embeds the `for _ in 0..10` retry loop of `receive_with_progress`:
an `Interrupted` failure retries the slot, `Ok(0)` signals EOT, `Ok(n)`
yields a packet, any other failure aborts, and exhausting the attempts
falls through to a `BrokenPipe` error. -/
def recv_try : Nat → List Nat → XSt → RecvTry
  | 0, buf, st => .fail .brokenPipe buf st
  | k + 1, buf, st =>
    match read_packet buf st with
    | (.error .interrupted, buf1, st1) => recv_try k buf1 st1
    | (.error e, buf1, st1) => .fail e buf1 st1
    | (.ok 0, buf1, st1) => .eot buf1 st1
    | (.ok n, buf1, st1) => .got n buf1 st1

/-- Embeds the `'next_packet` loop of `receive_with_progress`.  The sink is
accumulated as a byte list; on a received packet the whole 128-byte buffer
is appended (`into.write_all(&packet)`).  The outer loop is driven by a
fuel parameter: every productive iteration consumes at least 132 input
bytes, so the fuel `receive` supplies can never run out; `outOfFuel` marks
the unreachable exhaustion case. -/
def receive_loop : Nat → List Nat → Nat → List Nat → XSt →
    Except ErrorKind Nat × XSt × List Nat
  | 0, _, _, sink, st => (.error .outOfFuel, st, sink)
  | fuel + 1, buf, received, sink, st =>
    match recv_try 10 buf st with
    | .fail e _ st1 => (.error e, st1, sink)
    | .eot _ st1 => (.ok received, st1, sink)
    | .got n buf1 st1 =>
      receive_loop fuel buf1 (received + n) (sink ++ buf1) st1

/-- Embeds `receive_with_progress`: build a fresh session, immediately
write the readiness NAK, then run the packet loop with a 128-byte buffer.
The result is the returned count, the final channel state, and the sink
contents. -/
def receive_with_progress (chanInput : List Nat) :
    Except ErrorKind Nat × XSt × List Nat :=
  let st0 := new chanInput
  let st1 := write_byte NAK st0
  receive_loop (chanInput.length + 1) (List.replicate 128 0) 0 [] st1

/-- Embeds `receive` (which is `receive_with_progress` with a no-op
progress callback). -/
def receive (chanInput : List Nat) :
    Except ErrorKind Nat × XSt × List Nat :=
  receive_with_progress chanInput

/-- Wire frame for one data packet: `SOH, seq, 255 - seq, payload…,
checksum`, exactly the bytes `write_packet` emits for a non-empty buffer. -/
def frame (p : Nat) (buf : List Nat) : List Nat :=
  [SOH, p, 255 - p] ++ buf ++ [get_checksum buf]

/-- Number of 128-byte data packets the sender produces for a source. -/
def numFrames (data : List Nat) : Nat :=
  if data = [] then 0 else 1 + numFrames (data.drop 128)
termination_by data.length
decreasing_by
  simp only [List.length_drop]
  have : data ≠ [] := by assumption
  have : 0 < data.length := List.length_pos.mpr this
  omega

/-- Concatenation of the data frames the sender emits for a source,
starting at sequence number `p`: each 128-byte chunk (the last one
zero-padded) framed in order, with the sequence advancing mod 256. -/
def sentFrames (p : Nat) (data : List Nat) : List Nat :=
  if data = [] then []
  else
    let chunk := data.take 128 ++ List.replicate (128 - (data.take 128).length) 0
    frame p chunk ++ sentFrames ((p + 1) % 256) (data.drop 128)
termination_by data.length
decreasing_by
  simp only [List.length_drop]
  have : data ≠ [] := by assumption
  have : 0 < data.length := List.length_pos.mpr this
  omega

/-- Source data cut into 128-byte chunks with the final chunk zero-padded:
exactly what a cooperating receiver writes to its sink. -/
def padTo128 (data : List Nat) : List Nat :=
  if data = [] then []
  else
    (data.take 128 ++ List.replicate (128 - (data.take 128).length) 0) ++
      padTo128 (data.drop 128)
termination_by data.length
decreasing_by
  simp only [List.length_drop]
  have : data ≠ [] := by assumption
  have : 0 < data.length := List.length_pos.mpr this
  omega

/-- Nat stream a cooperating receiver sends back to the sender: the
readiness NAK, one ACK per data packet, then NAK and ACK for the EOT
handshake. -/
def coopInput (data : List Nat) : List Nat :=
  NAK :: (List.replicate (numFrames data) ACK ++ [NAK, ACK])

end Xmodem

namespace Xmodem

/-! Basic lemmas about the byte-level primitives. -/

theorem read_byte_true_ok (st : XSt) (b : Nat) (rest : List Nat)
    (hb : b ≠ CAN) (hin : st.input = b :: rest) :
    read_byte true st = (.ok b, { st with input := rest }) := by
  simp [read_byte, hin, hb]

theorem read_byte_false_ok (st : XSt) (b : Nat) (rest : List Nat)
    (hin : st.input = b :: rest) :
    read_byte false st = (.ok b, { st with input := rest }) := by
  simp [read_byte, hin]

theorem read_byte_true_can (st : XSt) (rest : List Nat)
    (hin : st.input = CAN :: rest) :
    read_byte true st = (.error .connectionAborted, { st with input := rest }) := by
  simp [read_byte, hin]

theorem expect_byte_ok (byte : Nat) (st : XSt) (rest : List Nat)
    (hb : byte ≠ CAN) (hin : st.input = byte :: rest) :
    expect_byte byte st = (.ok byte, { st with input := rest }) := by
  simp [expect_byte, hb, read_byte_true_ok st byte rest hb hin]

end Xmodem

namespace Xmodem

/-! Lemmas about a single data-frame write and the sender's retry loop. -/

theorem write_packet_ack (buf : List Nat) (st : XSt) (rest : List Nat)
    (hne : buf ≠ []) (hin : st.input = ACK :: rest) :
    write_packet buf st =
      (.ok buf.length,
        { packet := (st.packet + 1) % 256, started := st.started,
          input := rest, output := st.output ++ frame st.packet buf }) := by
  simp [write_packet, hne, write_byte, frame, read_byte, hin, ACK, CAN, NAK, SOH]

theorem write_packet_nak (buf : List Nat) (st : XSt) (rest : List Nat)
    (hne : buf ≠ []) (hin : st.input = NAK :: rest) :
    write_packet buf st =
      (.error .interrupted,
        { st with input := rest, output := st.output ++ frame st.packet buf }) := by
  simp [write_packet, hne, write_byte, frame, read_byte, hin, ACK, CAN, NAK, SOH]

theorem write_packet_can (buf : List Nat) (st : XSt) (rest : List Nat)
    (hne : buf ≠ []) (hin : st.input = CAN :: rest) :
    write_packet buf st =
      (.error .connectionAborted,
        { st with input := rest, output := st.output ++ frame st.packet buf }) := by
  simp [write_packet, hne, write_byte, frame, read_byte, hin, ACK, CAN, NAK, SOH]

theorem write_packet_other (buf : List Nat) (st : XSt) (b : Nat) (rest : List Nat)
    (hne : buf ≠ []) (hb1 : b ≠ ACK) (hb2 : b ≠ NAK) (hb3 : b ≠ CAN)
    (hin : st.input = b :: rest) :
    write_packet buf st =
      (.error .invalidData,
        { st with input := rest, output := st.output ++ frame st.packet buf }) := by
  simp [write_packet, hne, write_byte, frame, read_byte, hin, hb1, hb2, hb3]

end Xmodem

namespace Xmodem

theorem try_send_ack (k j : Nat) (buf : List Nat) :
    ∀ st rest, j < k → buf ≠ [] →
    st.input = List.replicate j NAK ++ ACK :: rest →
    try_send k buf st =
      .ok { packet := (st.packet + 1) % 256, started := st.started,
            input := rest,
            output := st.output ++ (List.replicate (j + 1) (frame st.packet buf)).flatten } := by
  induction j generalizing k with
  | zero =>
    intro st rest hk hne hin
    match k, hk with
    | k + 1, _ =>
      simp only [List.replicate, List.nil_append] at hin
      simp [try_send, write_packet_ack buf st rest hne hin]
  | succ j ih =>
    intro st rest hk hne hin
    match k, hk with
    | k + 1, hk =>
      simp only [List.replicate, List.cons_append] at hin
      have hw := write_packet_nak buf st _ hne hin
      have hih := ih k
        ⟨st.packet, st.started, List.replicate j NAK ++ ACK :: rest,
          st.output ++ frame st.packet buf⟩ rest (by omega) hne rfl
      simp only [try_send, hw]
      simp only [hih]
      simp [List.replicate_succ, List.append_assoc]

theorem try_send_all_nak (k : Nat) (buf : List Nat) :
    ∀ st rest, buf ≠ [] →
    st.input = List.replicate k NAK ++ rest →
    try_send k buf st =
      .fail .brokenPipe
        { st with
            input := rest,
            output := st.output ++ (List.replicate k (frame st.packet buf)).flatten } := by
  induction k with
  | zero =>
    intro st rest hne hin
    simp only [List.replicate, List.nil_append] at hin
    simp [try_send, ← hin]
  | succ k ih =>
    intro st rest hne hin
    simp only [List.replicate, List.cons_append] at hin
    have hw := write_packet_nak buf st _ hne hin
    have hih := ih
      ⟨st.packet, st.started, List.replicate k NAK ++ rest,
        st.output ++ frame st.packet buf⟩ rest hne rfl
    simp only [try_send, hw]
    simp only [hih]
    simp [List.replicate_succ, List.append_assoc]

end Xmodem

namespace Xmodem

theorem chunk_length (data : List Nat) :
    (data.take 128 ++ List.replicate (128 - (data.take 128).length) 0).length = 128 := by
  simp [List.length_take]

theorem transmit_loop_coop (data : List Nat) :
    ∀ written st tail, st.packet < 256 →
    st.input = List.replicate (numFrames data) ACK ++ NAK :: ACK :: tail →
    transmit_loop data written st =
      (.ok (written + data.length),
        { packet := (st.packet + numFrames data) % 256, started := st.started,
          input := tail,
          output := st.output ++ sentFrames st.packet data ++ [EOT, EOT] }) := by
  induction data using numFrames.induct with
  | case1 =>
    intro written st tail hp hin
    rw [numFrames] at hin
    simp only [if_pos rfl, List.replicate, List.nil_append] at hin
    rw [transmit_loop]
    simp [expect_byte, read_byte, write_byte, hin, numFrames, sentFrames,
      EOT, NAK, ACK, CAN, Nat.mod_eq_of_lt hp]
  | case2 data hne ih =>
    intro written st tail hp hin
    rw [numFrames] at hin
    simp only [if_neg hne] at hin
    rw [Nat.add_comm 1 (numFrames (data.drop 128)), List.replicate_succ,
      List.cons_append] at hin
    rw [transmit_loop]
    have hlen : ¬ (data.take 128).length = 0 := by
      simp only [List.length_take]
      have hpos := List.length_pos.mpr hne
      omega
    simp only [if_neg hlen]
    have hsend := try_send_ack 10 0
      (data.take 128 ++ List.replicate (128 - (data.take 128).length) 0)
      st (List.replicate (numFrames (data.drop 128)) ACK ++ NAK :: ACK :: tail)
      (by omega)
      (by
        intro hcon
        have hcl := congrArg List.length hcon
        rw [chunk_length data] at hcl
        simp at hcl)
      (by simpa using hin)
    simp only [hsend]
    have hih := ih (written + (data.take 128).length)
      ⟨(st.packet + 1) % 256, st.started,
        List.replicate (numFrames (data.drop 128)) ACK ++ NAK :: ACK :: tail,
        st.output ++ (List.replicate 1 (frame st.packet
          (data.take 128 ++ List.replicate (128 - (data.take 128).length) 0))).flatten⟩
      tail (Nat.mod_lt _ (by omega)) rfl
    simp only [hih]
    have hnf : numFrames data = 1 + numFrames (data.drop 128) := by
      rw [numFrames]
      simp [hne]
    have hsf : sentFrames st.packet data =
        frame st.packet (data.take 128 ++ List.replicate (128 - (data.take 128).length) 0) ++
          sentFrames ((st.packet + 1) % 256) (data.drop 128) := by
      rw [sentFrames]
      simp [hne]
    have harith : ((st.packet + 1) % 256 + numFrames (data.drop 128)) % 256 =
        (st.packet + (1 + numFrames (data.drop 128))) % 256 := by
      rw [Nat.mod_add_mod, Nat.add_assoc]
    simp [hnf, hsf, harith, List.append_assoc]
    omega

end Xmodem

namespace Xmodem

theorem transmit_coop (data : List Nat) :
    transmit data (coopInput data) =
      (.ok data.length,
        { packet := (1 + numFrames data) % 256, started := true,
          input := [],
          output := sentFrames 1 data ++ [EOT, EOT] }) := by
  rw [transmit, transmit_with_progress]
  have h1 := read_byte_true_ok (new (coopInput data)) NAK
    (List.replicate (numFrames data) ACK ++ [NAK, ACK]) (by decide)
    (by simp [new, coopInput])
  simp only [h1]
  have h2 := transmit_loop_coop data 0
    ⟨1, true, List.replicate (numFrames data) ACK ++ [NAK, ACK], []⟩ []
    (by simp) rfl
  simp only [new] at h2 ⊢
  simp [h2]

theorem numFrames_eq (data : List Nat) :
    numFrames data = (data.length + 127) / 128 := by
  induction data using numFrames.induct with
  | case1 => simp [numFrames]
  | case2 data hne ih =>
    rw [numFrames, if_neg hne, ih]
    simp only [List.length_drop]
    have hpos := List.length_pos.mpr hne
    omega

theorem sentFrames_length (data : List Nat) :
    ∀ p, (sentFrames p data).length = 132 * numFrames data := by
  induction data using numFrames.induct with
  | case1 =>
    intro p
    simp [sentFrames, numFrames]
  | case2 data hne ih =>
    intro p
    rw [sentFrames, if_neg hne, numFrames, if_neg hne]
    simp [frame, List.length_append, chunk_length, ih]
    omega

theorem get_checksum_foldl (l : List Nat) :
    ∀ a, l.foldl (fun x y => (x + y) % 256) (a % 256) = (a + l.sum) % 256 := by
  induction l with
  | nil =>
    intro a
    simp
  | cons b t ih =>
    intro a
    simp only [List.foldl_cons, List.sum_cons]
    rw [Nat.mod_add_mod, ih (a + b), Nat.add_assoc]

theorem get_checksum_eq_sum (l : List Nat) : get_checksum l = l.sum % 256 := by
  have h := get_checksum_foldl l 0
  simpa [get_checksum] using h

end Xmodem

namespace Xmodem

theorem read_packet_data_ok (buf payload rest : List Nat) (st : XSt)
    (hb : buf.length = 128) (hp : payload.length = 128)
    (h24 : st.packet ≠ CAN) (h231 : 255 - st.packet ≠ CAN)
    (hin : st.input =
      SOH :: st.packet :: (255 - st.packet) ::
        (payload ++ get_checksum payload :: rest)) :
    read_packet buf st =
      (.ok 128, payload,
        { packet := (st.packet + 1) % 256, started := st.started,
          input := rest, output := st.output ++ [ACK] }) := by
  rw [read_packet]
  have hble : ¬ buf.length < 128 := by omega
  simp only [if_neg hble]
  have h1 := read_byte_true_ok st SOH
    (st.packet :: (255 - st.packet) :: (payload ++ get_checksum payload :: rest))
    (by decide) hin
  simp only [h1]
  have hSOH1 : ¬ (SOH = EOT) := by decide
  have hSOH2 : ¬ (SOH ≠ SOH) := by simp
  simp only [if_neg hSOH1, if_neg hSOH2]
  have h2 := read_byte_true_ok
    ⟨st.packet, st.started,
      st.packet :: (255 - st.packet) :: (payload ++ get_checksum payload :: rest),
      st.output⟩ st.packet ((255 - st.packet) :: (payload ++ get_checksum payload :: rest))
    h24 rfl
  simp only [h2]
  have h3 := read_byte_true_ok
    ⟨st.packet, st.started,
      (255 - st.packet) :: (payload ++ get_checksum payload :: rest), st.output⟩
    (255 - st.packet) (payload ++ get_checksum payload :: rest) h231 rfl
  simp only [h3]
  have hmatch : ¬ (st.packet ≠ st.packet ∨ 255 - st.packet ≠ 255 - st.packet) := by
    simp
  simp only [if_neg hmatch]
  rw [read_exact]
  have hlen2 : ¬ ((payload ++ get_checksum payload :: rest).length < buf.length) := by
    simp [List.length_append, hp, hb]
  simp only [if_neg hlen2]
  have htake : (payload ++ get_checksum payload :: rest).take buf.length = payload := by
    rw [hb, ← hp]
    simp [List.take_append]
  have hdrop : (payload ++ get_checksum payload :: rest).drop buf.length =
      get_checksum payload :: rest := by
    rw [hb, ← hp]
    simp [List.drop_append]
  simp only [htake, hdrop]
  have h4 := read_byte_false_ok
    ⟨st.packet, st.started, get_checksum payload :: rest, st.output⟩
    (get_checksum payload) rest rfl
  simp only [h4]
  simp [write_byte]

theorem read_packet_eot (buf rest : List Nat) (st : XSt)
    (hb : buf.length = 128)
    (hin : st.input = EOT :: EOT :: rest) :
    read_packet buf st =
      (.ok 0, buf,
        { st with input := rest, output := st.output ++ [NAK, ACK] }) := by
  rw [read_packet]
  have hble : ¬ buf.length < 128 := by omega
  simp only [if_neg hble]
  have h1 := read_byte_true_ok st EOT (EOT :: rest) (by decide) hin
  simp only [h1]
  have h2 := expect_byte_ok EOT
    ⟨st.packet, st.started, EOT :: rest, st.output ++ [NAK]⟩ rest (by decide) rfl
  simp only [if_pos rfl, write_byte]
  simp only [h2]
  simp [write_byte]

end Xmodem

namespace Xmodem
theorem receive_loop_coop (data : List Nat) :
    ∀ fuel buf received sink st tail,
    buf.length = 128 → st.packet < 256 →
    numFrames data + 1 ≤ fuel →
    (∀ i, i < numFrames data →
      (st.packet + i) % 256 ≠ CAN ∧ (st.packet + i) % 256 ≠ 231) →
    st.input = sentFrames st.packet data ++ EOT :: EOT :: tail →
    receive_loop fuel buf received sink st =
      (.ok (received + 128 * numFrames data),
        { packet := (st.packet + numFrames data) % 256, started := st.started,
          input := tail,
          output := st.output ++ (List.replicate (numFrames data) ACK ++ [NAK, ACK]) },
        sink ++ padTo128 data) := by
  induction data using numFrames.induct with
  | case1 =>
    intro fuel buf received sink st tail hb hp hfuel hseq hin
    rw [sentFrames] at hin
    simp only [if_pos rfl, List.nil_append] at hin
    match fuel, hfuel with
    | fuel + 1, _ =>
      rw [receive_loop]
      have he := read_packet_eot buf tail st hb hin
      simp [recv_try, he, numFrames, padTo128, Nat.mod_eq_of_lt hp]
  | case2 data hne ih =>
    intro fuel buf received sink st tail hb hp hfuel hseq hin
    have hnf : numFrames data = 1 + numFrames (data.drop 128) := by
      rw [numFrames]
      simp [hne]
    have h24 : st.packet ≠ CAN := by
      have hs := (hseq 0 (by omega)).1
      rwa [Nat.add_zero, Nat.mod_eq_of_lt hp] at hs
    have h231 : 255 - st.packet ≠ CAN := by
      have h0 := (hseq 0 (by omega)).2
      rw [Nat.add_zero, Nat.mod_eq_of_lt hp] at h0
      simp only [CAN] at h0 ⊢
      omega
    rw [sentFrames] at hin
    simp only [if_neg hne, List.append_assoc, List.cons_append,
      List.singleton_append, frame] at hin
    match fuel, hfuel with
    | fuel + 1, hfuel =>
      rw [receive_loop]
      have hrp := read_packet_data_ok buf
        (data.take 128 ++ List.replicate (128 - (data.take 128).length) 0)
        (sentFrames ((st.packet + 1) % 256) (data.drop 128) ++ EOT :: EOT :: tail)
        st hb (chunk_length data) h24 h231 (by simpa using hin)
      simp only [recv_try, hrp]
      have hplt : ((st.packet + 1) % 256 : Nat) < 256 := by omega
      have hfuel2 : numFrames (data.drop 128) + 1 ≤ fuel := by omega
      have hshift : ∀ i, i < numFrames (data.drop 128) →
          ((st.packet + 1) % 256 + i) % 256 ≠ CAN ∧
            ((st.packet + 1) % 256 + i) % 256 ≠ 231 := by
        intro i hi
        have hs := hseq (i + 1) (by omega)
        have heq : ((st.packet + 1) % 256 + i) % 256 =
            (st.packet + (i + 1)) % 256 := by
          rw [Nat.mod_add_mod, Nat.add_assoc, Nat.add_comm 1 i]
        rw [heq]
        exact hs
      have hih := ih fuel
        (data.take 128 ++ List.replicate (128 - (data.take 128).length) 0)
        (received + 128)
        (sink ++ (data.take 128 ++ List.replicate (128 - (data.take 128).length) 0))
        ⟨(st.packet + 1) % 256, st.started,
          sentFrames ((st.packet + 1) % 256) (data.drop 128) ++ EOT :: EOT :: tail,
          st.output ++ [ACK]⟩ tail
        (chunk_length data) hplt hfuel2 hshift rfl
      simp only [hih]
      have hpad : padTo128 data =
          (data.take 128 ++ List.replicate (128 - (data.take 128).length) 0) ++
            padTo128 (data.drop 128) := by
        rw [padTo128]
        simp [hne]
      have harith : ((st.packet + 1) % 256 + numFrames (data.drop 128)) % 256 =
          (st.packet + (1 + numFrames (data.drop 128))) % 256 := by
        rw [Nat.mod_add_mod, Nat.add_assoc]
      have hrep : List.replicate (1 + numFrames (data.drop 128)) ACK =
          ACK :: List.replicate (numFrames (data.drop 128)) ACK := by
        rw [Nat.add_comm, List.replicate_succ]
      simp [hnf, hpad, harith, hrep, List.append_assoc, Nat.mul_add]
      omega

end Xmodem

namespace Xmodem

theorem padTo128_eq (data : List Nat) :
    padTo128 data = data ++ List.replicate (128 * numFrames data - data.length) 0 := by
  induction data using numFrames.induct with
  | case1 => simp [padTo128, numFrames]
  | case2 data hne ih =>
    rw [padTo128, if_neg hne, numFrames, if_neg hne, ih]
    by_cases hL : data.length ≤ 128
    · have htake : data.take 128 = data := List.take_of_length_le hL
      have hdrop : data.drop 128 = [] := List.drop_eq_nil_of_le hL
      rw [htake, hdrop]
      simp [numFrames]
    · have htlen : (data.take 128).length = 128 := by
        simp [List.length_take]
        omega
      have hcount : 128 * numFrames (data.drop 128) - (data.drop 128).length =
          128 * (1 + numFrames (data.drop 128)) - data.length := by
        simp only [List.length_drop]
        omega
      rw [htlen, hcount]
      simp only [Nat.sub_self, List.replicate_zero, List.append_nil]
      rw [← List.append_assoc, List.take_append_drop]

theorem receive_coop (data : List Nat) (hframes : numFrames data ≤ 23) :
    receive (sentFrames 1 data ++ [EOT, EOT]) =
      (.ok (128 * numFrames data),
        { packet := (1 + numFrames data) % 256, started := false,
          input := [], output := coopInput data },
        padTo128 data) := by
  rw [receive, receive_with_progress]
  have hlc := receive_loop_coop data
    ((sentFrames 1 data ++ [EOT, EOT]).length + 1)
    (List.replicate 128 0) 0 []
    ⟨1, false, sentFrames 1 data ++ [EOT, EOT], [NAK]⟩ []
    (by simp)
    (by simp)
    (by
      have hsl := sentFrames_length data 1
      simp [List.length_append, hsl]
      omega)
    (by
      intro i hi
      have hlt : 1 + i < 256 := by omega
      rw [Nat.mod_eq_of_lt hlt]
      simp only [CAN]
      omega)
    (by simp)
  simp only [new, write_byte] at hlc ⊢
  simp only [List.nil_append, Nat.zero_add] at hlc ⊢
  rw [hlc]
  simp [coopInput]

end Xmodem

namespace Xmodem

set_option maxRecDepth 40000 in
/-- C1, counterexample: with a caller buffer of length 129 and a channel
holding one well-formed 132-byte frame, the claim says `read_packet` reads
exactly 128 payload bytes and returns `Ok(128)`; the code instead calls
`read_exact` over the whole 129-byte buffer, consuming the checksum byte as
payload and then failing with `UnexpectedEof` when it looks for one more
byte. -/
theorem claim_C1_cex :
    (read_packet (List.replicate 129 0)
      (new ([SOH, 1, 254] ++ List.replicate 128 3 ++
        [get_checksum (List.replicate 128 3)]))).1 = .error .unexpectedEof := by
  rfl

/-- C1, amended: for a caller buffer of length exactly 128 (longer buffers
make the code read `buf.len()` payload bytes), `read_packet` reads exactly
128 payload bytes for a data frame, computes the checksum over exactly
those bytes, and on success returns 128: the channel is left with exactly
the bytes after the frame and the state advances by one acknowledged
packet. -/
theorem claim_C1 (buf payload rest : List Nat) (st : XSt)
    (hb : buf.length = 128) (hp : payload.length = 128)
    (h24 : st.packet ≠ CAN) (h231 : 255 - st.packet ≠ CAN)
    (hin : st.input = SOH :: st.packet :: (255 - st.packet) ::
      (payload ++ get_checksum payload :: rest)) :
    read_packet buf st =
      (.ok 128, payload,
        { packet := (st.packet + 1) % 256, started := st.started,
          input := rest, output := st.output ++ [ACK] }) :=
  read_packet_data_ok buf payload rest st hb hp h24 h231 hin

/-- C1, witness: the amended theorem applied to a concrete 128-byte buffer
and a concrete frame. -/
theorem claim_C1_witness :
    (List.replicate 128 0 : List Nat).length = 128 ∧
    (List.replicate 128 7 : List Nat).length = 128 ∧
    (new ([SOH, 1, 254] ++ List.replicate 128 7 ++
      [get_checksum (List.replicate 128 7)])).packet ≠ CAN ∧
    255 - (new ([SOH, 1, 254] ++ List.replicate 128 7 ++
      [get_checksum (List.replicate 128 7)])).packet ≠ CAN ∧
    read_packet (List.replicate 128 0)
      (new ([SOH, 1, 254] ++ List.replicate 128 7 ++
        [get_checksum (List.replicate 128 7)])) =
      (.ok 128, List.replicate 128 7, ⟨2, false, [], [ACK]⟩) :=
  ⟨by simp, by simp, by decide, by decide,
    claim_C1 (List.replicate 128 0) (List.replicate 128 7) []
      (new ([SOH, 1, 254] ++ List.replicate 128 7 ++
        [get_checksum (List.replicate 128 7)]))
      (by simp) (by simp) (by decide) (by decide) rfl⟩

/-- C2, counterexample: when the sender's initial handshake byte is CAN,
the call fails with `ConnectionAborted`, not `InvalidData` as the claim
states for every byte other than NAK. -/
theorem claim_C2_cex :
    transmit [1, 2, 3] [CAN] = (.error .connectionAborted, ⟨1, false, [], []⟩) ∧
    (transmit [1, 2, 3] [CAN]).1 ≠ .error .invalidData := by
  constructor
  · rfl
  · rw [show (transmit [1, 2, 3] [CAN]).1 =
      Except.error ErrorKind.connectionAborted from rfl]
    simp

/-- C2, amended: during the initial handshake of `transmit`, any received
byte other than NAK and CAN fails with `InvalidData` (CAN instead fails
with `ConnectionAborted`); after writing a data frame in `write_packet`,
any response byte other than ACK, NAK and CAN fails with `InvalidData`
(CAN instead fails with `ConnectionAborted`).  Both failures are
immediate, with no retry. -/
theorem claim_C2 :
    (∀ (data rest : List Nat) (b : Nat), b ≠ NAK → b ≠ CAN →
      transmit data (b :: rest) = (.error .invalidData, ⟨1, false, rest, []⟩)) ∧
    (∀ (buf rest : List Nat) (r : Nat) (st : XSt), buf ≠ [] →
      st.input = r :: rest → r ≠ ACK → r ≠ NAK → r ≠ CAN →
      write_packet buf st =
        (.error .invalidData,
          { st with input := rest, output := st.output ++ frame st.packet buf })) := by
  constructor
  · intro data rest b hb1 hb2
    rw [transmit, transmit_with_progress]
    have h1 := read_byte_true_ok (new (b :: rest)) b rest hb2 rfl
    simp only [new] at h1 ⊢
    simp only [h1]
    simp [hb1]
  · intro buf rest r st hne hin h1 h2 h3
    exact write_packet_other buf st r rest hne h1 h2 h3 hin

/-- C2, witness: the amended theorem applied at byte 0 for the handshake
and at response byte 0 for a data frame. -/
theorem claim_C2_witness :
    ((0 : Nat) ≠ NAK ∧ (0 : Nat) ≠ CAN ∧
      transmit [5] [0, 9] = (.error .invalidData, ⟨1, false, [9], []⟩)) ∧
    (([7] : List Nat) ≠ [] ∧ (0 : Nat) ≠ ACK ∧
      write_packet [7] ⟨1, false, [0], []⟩ =
        (.error .invalidData, ⟨1, false, [], frame 1 [7]⟩)) :=
  ⟨⟨by decide, by decide, claim_C2.1 [5] [9] 0 (by decide) (by decide)⟩,
   ⟨by simp, by decide,
     claim_C2.2 [7] [] 0 ⟨1, false, [0], []⟩ (by simp) rfl
       (by decide) (by decide) (by decide)⟩⟩

end Xmodem

namespace Xmodem

set_option maxRecDepth 40000 in
/-- C3, counterexample: the checksum byte of a frame is a protocol byte
whose expected value here is 128 (not CAN), yet when the peer sends CAN in
that position the session does not fail with `ConnectionAborted`: the byte
is read with abort-on-CAN disabled, compared as a checksum, and the
mismatch produces a NAK write and a retryable `Interrupted` error. -/
theorem claim_C3_cex :
    (read_packet (List.replicate 128 0)
      (new ([SOH, 1, 254] ++ List.replicate 128 1 ++ [CAN]))).1 =
        .error .interrupted ∧
    (read_packet (List.replicate 128 0)
      (new ([SOH, 1, 254] ++ List.replicate 128 1 ++ [CAN]))).1 ≠
        .error .connectionAborted := by
  constructor
  · rfl
  · rw [show (read_packet (List.replicate 128 0)
      (new ([SOH, 1, 254] ++ List.replicate 128 1 ++ [CAN]))).1 =
        Except.error ErrorKind.interrupted from rfl]
    simp

/-- C3, amended: at the byte reads performed with abort-on-CAN active — any
`read_byte true`, an `expect_byte` whose expected byte is not CAN, and the
response read of `write_packet` — receiving CAN fails immediately with
`ConnectionAborted` on that very byte; and abort-on-CAN detection is
disabled when CAN is itself the expected byte of `expect_byte` (which then
succeeds on CAN).  The reads `read_packet` performs with abort-on-CAN
disabled (the checksum byte, and the diagnostic byte after a bad header)
are excluded, as the counterexample shows. -/
theorem claim_C3 :
    (∀ (st : XSt) (rest : List Nat), st.input = CAN :: rest →
      read_byte true st = (.error .connectionAborted, { st with input := rest })) ∧
    (∀ (b : Nat) (st : XSt) (rest : List Nat), b ≠ CAN → st.input = CAN :: rest →
      expect_byte b st = (.error .connectionAborted, { st with input := rest })) ∧
    (∀ (buf rest : List Nat) (st : XSt), buf ≠ [] → st.input = CAN :: rest →
      write_packet buf st =
        (.error .connectionAborted,
          { st with input := rest, output := st.output ++ frame st.packet buf })) ∧
    (∀ (st : XSt) (rest : List Nat), st.input = CAN :: rest →
      expect_byte CAN st = (.ok CAN, { st with input := rest })) := by
  refine ⟨?_, ?_, ?_, ?_⟩
  · intro st rest hin
    exact read_byte_true_can st rest hin
  · intro b st rest hb hin
    simp [expect_byte, hb, read_byte_true_can st rest hin]
  · intro buf rest st hne hin
    exact write_packet_can buf st rest hne hin
  · intro st rest hin
    simp [expect_byte, read_byte_false_ok st CAN rest hin]

/-- C3, witness: the amended theorem applied to concrete sessions whose
next input byte is CAN. -/
theorem claim_C3_witness :
    read_byte true ⟨1, false, [CAN, 9], []⟩ =
      (.error .connectionAborted, ⟨1, false, [9], []⟩) ∧
    ((5 : Nat) ≠ CAN ∧
      expect_byte 5 ⟨1, false, [CAN, 9], []⟩ =
        (.error .connectionAborted, ⟨1, false, [9], []⟩)) ∧
    (([7] : List Nat) ≠ [] ∧
      write_packet [7] ⟨1, false, [CAN, 9], []⟩ =
        (.error .connectionAborted, ⟨1, false, [9], frame 1 [7]⟩)) ∧
    expect_byte CAN ⟨1, false, [CAN, 9], []⟩ = (.ok CAN, ⟨1, false, [9], []⟩) :=
  ⟨claim_C3.1 ⟨1, false, [CAN, 9], []⟩ [9] rfl,
   ⟨by decide, claim_C3.2.1 5 ⟨1, false, [CAN, 9], []⟩ [9] (by decide) rfl⟩,
   ⟨by simp, claim_C3.2.2.1 [7] [9] ⟨1, false, [CAN, 9], []⟩ (by simp) rfl⟩,
   claim_C3.2.2.2 ⟨1, false, [CAN, 9], []⟩ [9] rfl⟩

end Xmodem

namespace Xmodem

/-- C4: against a cooperative peer (initial NAK, one ACK per packet, NAK
then ACK for the EOT handshake), `transmit` returns `Ok(L)` for a source of
any length `L`, its wire output is exactly the concatenated data frames
followed by the two EOT bytes, and the number of frames is `ceil(L/128)`
(zero frames when `L = 0`), with the zero padding of the final short frame
never counted in the returned total. -/
theorem claim_C4 (data : List Nat) :
    transmit data (coopInput data) =
      (.ok data.length,
        ⟨(1 + numFrames data) % 256, true, [],
          sentFrames 1 data ++ [EOT, EOT]⟩) ∧
    numFrames data = (data.length + 127) / 128 ∧
    (sentFrames 1 data).length = 132 * numFrames data :=
  ⟨transmit_coop data, numFrames_eq data, sentFrames_length data 1⟩

/-- C6: the frame checksum equals the additive sum of the payload bytes
modulo 256, and for a 128-byte payload of byte values, changing exactly one
byte to a different byte value always changes the checksum. -/
theorem claim_C6 :
    (∀ payload : List Nat, get_checksum payload = payload.sum % 256) ∧
    (∀ (pre post : List Nat) (a b : Nat),
      (pre ++ a :: post).length = 128 → a < 256 → b < 256 → b ≠ a →
      get_checksum (pre ++ b :: post) ≠ get_checksum (pre ++ a :: post)) := by
  refine ⟨get_checksum_eq_sum, ?_⟩
  intro pre post a b hlen ha hb hne
  rw [get_checksum_eq_sum, get_checksum_eq_sum]
  simp only [List.sum_append, List.sum_cons]
  intro hc
  apply hne
  omega

/-- C6, witness: the checksum formula and the single-byte sensitivity at a
concrete 128-byte payload. -/
theorem claim_C6_witness :
    get_checksum [3, 250] = ([3, 250] : List Nat).sum % 256 ∧
    ((([] ++ 0 :: List.replicate 127 0 : List Nat).length = 128 ∧
        (0 : Nat) < 256 ∧ (1 : Nat) < 256 ∧ (1 : Nat) ≠ 0) ∧
      get_checksum ([] ++ 1 :: List.replicate 127 0) ≠
        get_checksum ([] ++ 0 :: List.replicate 127 0)) :=
  ⟨claim_C6.1 [3, 250],
   ⟨by simp, by omega, by omega, by omega⟩,
   claim_C6.2 [] (List.replicate 127 0) 0 1 (by simp) (by omega) (by omega)
     (by omega)⟩

/-- C10: `write_packet` performs no payload-length validation: for any
non-empty buffer of length `n` (including `n` different from 128) it writes
the `n + 4` byte frame `SOH, seq, 255 - seq, buffer bytes, checksum over
those `n` bytes` and returns `Ok(n)` when the peer responds ACK. -/
theorem claim_C10 (buf rest : List Nat) (st : XSt)
    (hne : buf ≠ []) (hin : st.input = ACK :: rest) :
    write_packet buf st =
      (.ok buf.length,
        { packet := (st.packet + 1) % 256, started := st.started,
          input := rest, output := st.output ++ frame st.packet buf }) ∧
    (frame st.packet buf).length = buf.length + 4 := by
  refine ⟨write_packet_ack buf st rest hne hin, ?_⟩
  simp [frame]

/-- C10, witness: a 5-byte payload is framed as 9 bytes and accepted. -/
theorem claim_C10_witness :
    (([1, 2, 3, 4, 5] : List Nat) ≠ [] ∧
      (⟨1, false, [ACK], []⟩ : XSt).input = ACK :: []) ∧
    write_packet [1, 2, 3, 4, 5] ⟨1, false, [ACK], []⟩ =
      (.ok 5, ⟨2, false, [], frame 1 [1, 2, 3, 4, 5]⟩) ∧
    (frame 1 [1, 2, 3, 4, 5]).length = 9 :=
  ⟨⟨by simp, rfl⟩,
    (claim_C10 [1, 2, 3, 4, 5] [] ⟨1, false, [ACK], []⟩ (by simp) rfl).1,
    (claim_C10 [1, 2, 3, 4, 5] [] ⟨1, false, [ACK], []⟩ (by simp) rfl).2⟩

end Xmodem

namespace Xmodem

theorem sentFrames_append (k : Nat) :
    ∀ (a b : List Nat) (p : Nat), a.length = 128 * k → p < 256 →
    sentFrames p (a ++ b) = sentFrames p a ++ sentFrames ((p + k) % 256) b := by
  induction k with
  | zero =>
    intro a b p ha hp
    have hanil : a = [] := List.eq_nil_of_length_eq_zero (by omega)
    subst hanil
    conv_rhs => rw [sentFrames]
    simp [Nat.mod_eq_of_lt hp]
  | succ k ih =>
    intro a b p ha hp
    have hane : a ≠ [] := by
      intro h
      subst h
      simp at ha
    have habne : a ++ b ≠ [] := by
      intro h
      exact hane (List.append_eq_nil.mp h).1
    rw [sentFrames, if_neg habne]
    conv_rhs => rw [sentFrames, if_neg hane]
    have hle : 128 ≤ a.length := by omega
    have htake : (a ++ b).take 128 = a.take 128 :=
      List.take_append_of_le_length hle
    have hdrop : (a ++ b).drop 128 = a.drop 128 ++ b :=
      List.drop_append_of_le_length hle
    rw [htake, hdrop,
      ih (a.drop 128) b ((p + 1) % 256)
        (by simp [List.length_drop]; omega) (by omega)]
    have harith : (((p + 1) % 256) + k) % 256 = (p + (k + 1)) % 256 := by
      rw [Nat.mod_add_mod, Nat.add_assoc, Nat.add_comm 1 k]
    rw [harith]
    simp [List.append_assoc]

theorem sentFrames_single (p : Nat) (chunk : List Nat) (hc : chunk.length = 128) :
    sentFrames p chunk = frame p chunk := by
  have hne : chunk ≠ [] := by
    intro h
    subst h
    simp at hc
  rw [sentFrames, if_neg hne]
  have htake : chunk.take 128 = chunk := List.take_of_length_le (by omega)
  have hdrop : chunk.drop 128 = [] := List.drop_eq_nil_of_le (by omega)
  rw [htake, hdrop, hc, sentFrames]
  simp

end Xmodem

namespace Xmodem

set_option maxRecDepth 40000 in
/-- C7: a fresh session starts at sequence 1; a sender at sequence 255
whose packet is ACKed advances to 0 (wrapping addition, not a reset to 1);
a receiver expecting sequence 0 accepts a frame carrying sequence byte 0
and complement byte 255 and advances to 1; and transmitting exactly 256
bytes against a cooperative peer produces two frames with sequence numbers
1 and 2. -/
theorem claim_C7 :
    (∀ chanInput : List Nat, (new chanInput).packet = 1) ∧
    (∀ (buf rest : List Nat) (st : XSt), buf ≠ [] → st.packet = 255 →
      st.input = ACK :: rest →
      write_packet buf st =
        (.ok buf.length, ⟨0, st.started, rest, st.output ++ frame 255 buf⟩)) ∧
    (∀ (payload rest : List Nat) (st : XSt), payload.length = 128 →
      st.packet = 0 →
      st.input = SOH :: 0 :: 255 :: (payload ++ get_checksum payload :: rest) →
      read_packet (List.replicate 128 0) st =
        (.ok 128, payload, ⟨1, st.started, rest, st.output ++ [ACK]⟩)) ∧
    transmit (List.replicate 256 5) (coopInput (List.replicate 256 5)) =
      (.ok 256, ⟨3, true, [],
        frame 1 (List.replicate 128 5) ++ frame 2 (List.replicate 128 5) ++
          [EOT, EOT]⟩) := by
  refine ⟨?_, ?_, ?_, ?_⟩
  · intro chanInput
    rfl
  · intro buf rest st hne hp hin
    have h := write_packet_ack buf st rest hne hin
    rw [hp] at h
    simpa using h
  · intro payload rest st hlen hp hin
    have h24 : st.packet ≠ CAN := by
      rw [hp]
      decide
    have h231 : 255 - st.packet ≠ CAN := by
      rw [hp]
      decide
    have hin2 : st.input = SOH :: st.packet :: (255 - st.packet) ::
        (payload ++ get_checksum payload :: rest) := by
      rw [hp]
      exact hin
    have h := read_packet_data_ok (List.replicate 128 0) payload rest st
      (by simp) hlen h24 h231 hin2
    rw [hp] at h
    simpa using h
  · have hnum : numFrames (List.replicate 256 5) = 2 := by
      rw [numFrames_eq]
      simp
    have hsplit : (List.replicate 256 5 : List Nat) =
        List.replicate 128 5 ++ List.replicate 128 5 := by
      rw [← List.replicate_add]
    have hsf : sentFrames 1 (List.replicate 256 5) =
        frame 1 (List.replicate 128 5) ++ frame 2 (List.replicate 128 5) := by
      rw [hsplit,
        sentFrames_append 1 (List.replicate 128 5) (List.replicate 128 5) 1
          (by simp) (by omega),
        sentFrames_single 1 _ (by simp),
        sentFrames_single ((1 + 1) % 256) _ (by simp)]
    have h := transmit_coop (List.replicate 256 5)
    rw [hnum, hsf] at h
    simpa [List.append_assoc] using h

/-- C7, witness: the wrap parts of the theorem applied at concrete states:
a sender at sequence 255 advancing to 0, and a receiver expecting 0
accepting sequence byte 0 with complement 255. -/
theorem claim_C7_witness :
    (new []).packet = 1 ∧
    (([9] : List Nat) ≠ [] ∧
      write_packet [9] ⟨255, true, [ACK], []⟩ =
        (.ok 1, ⟨0, true, [], frame 255 [9]⟩)) ∧
    ((List.replicate 128 4 : List Nat).length = 128 ∧
      read_packet (List.replicate 128 0)
        ⟨0, false, SOH :: 0 :: 255 ::
          (List.replicate 128 4 ++ get_checksum (List.replicate 128 4) :: []),
          []⟩ =
        (.ok 128, List.replicate 128 4, ⟨1, false, [], [ACK]⟩)) :=
  ⟨claim_C7.1 [],
   ⟨by simp, claim_C7.2.1 [9] [] ⟨255, true, [ACK], []⟩ (by simp) rfl rfl⟩,
   ⟨by simp, claim_C7.2.2.1 (List.replicate 128 4) []
     ⟨0, false, SOH :: 0 :: 255 ::
       (List.replicate 128 4 ++ get_checksum (List.replicate 128 4) :: []), []⟩
     (by simp) rfl rfl⟩⟩

end Xmodem

namespace Xmodem

/-- C8: with a peer that NAKs the first 9 attempts of the single data
packet and ACKs the 10th, `transmit` succeeds with `Ok(10)`, having put the
same frame (same sequence number 1, same padded payload) on the wire 10
times; with a peer that NAKs all 10 attempts, `transmit` of a two-packet
source fails with `BrokenPipe` after 10 identical copies of the first
frame, attempting no further packets and no EOT handshake. -/
theorem claim_C8 :
    transmit (List.replicate 10 7)
        (NAK :: (List.replicate 9 NAK ++ [ACK, NAK, ACK])) =
      (.ok 10, ⟨2, true, [],
        (List.replicate 10
          (frame 1 (List.replicate 10 7 ++ List.replicate 118 0))).flatten ++
            [EOT, EOT]⟩) ∧
    transmit (List.replicate 200 9) (NAK :: List.replicate 10 NAK) =
      (.error .brokenPipe, ⟨1, true, [],
        (List.replicate 10 (frame 1 (List.replicate 128 9))).flatten⟩) := by
  constructor
  · rw [transmit, transmit_with_progress]
    have h1 := read_byte_true_ok
      (new (NAK :: (List.replicate 9 NAK ++ [ACK, NAK, ACK]))) NAK
      (List.replicate 9 NAK ++ [ACK, NAK, ACK]) (by decide) rfl
    simp only [new] at h1 ⊢
    simp only [h1]
    rw [if_neg (show ¬(NAK ≠ NAK) by simp)]
    rw [transmit_loop]
    have htake : (List.replicate 10 7 : List Nat).take 128 = List.replicate 10 7 :=
      List.take_of_length_le (by simp)
    have hdrop : (List.replicate 10 7 : List Nat).drop 128 = [] :=
      List.drop_eq_nil_of_le (by simp)
    simp only [htake, hdrop, List.length_replicate]
    have hsend := try_send_ack 10 9
      (List.replicate 10 7 ++ List.replicate (128 - 10) 0)
      ⟨1, true, List.replicate 9 NAK ++ [ACK, NAK, ACK], []⟩ [NAK, ACK]
      (by omega)
      (by
        intro hcon
        have hl := congrArg List.length hcon
        simp only [List.length_append, List.length_replicate,
          List.length_nil] at hl
        omega)
      rfl
    simp only [show (128 - 10 : Nat) = 118 from rfl] at hsend
    simp only [hsend]
    have hloop := transmit_loop_coop [] 10
      ⟨2, true, [NAK, ACK],
        [] ++ (List.replicate 10
          (frame 1 (List.replicate 10 7 ++ List.replicate 118 0))).flatten⟩ []
      (by simp) (by simp [numFrames])
    have hnum0 : numFrames ([] : List Nat) = 0 := by
      rw [numFrames]
      simp
    have hsf0 : sentFrames 2 ([] : List Nat) = [] := by
      rw [sentFrames]
      simp
    rw [hnum0, hsf0] at hloop
    simp only [List.nil_append, List.length_nil, Nat.add_zero,
      List.append_nil] at hloop ⊢
    rw [hloop]
    norm_num
  · rw [transmit, transmit_with_progress]
    have h1 := read_byte_true_ok (new (NAK :: List.replicate 10 NAK)) NAK
      (List.replicate 10 NAK) (by decide) rfl
    simp only [new] at h1 ⊢
    simp only [h1]
    rw [if_neg (show ¬(NAK ≠ NAK) by simp)]
    rw [transmit_loop]
    have htake : (List.replicate 200 9 : List Nat).take 128 =
        List.replicate 128 9 := by
      rw [List.take_replicate]
      norm_num
    simp only [htake, List.length_replicate]
    have hsend := try_send_all_nak 10
      (List.replicate 128 9 ++ List.replicate (128 - 128) 0)
      ⟨1, true, List.replicate 10 NAK, []⟩ []
      (by
        intro hcon
        have hl := congrArg List.length hcon
        simp only [List.length_append, List.length_replicate,
          List.length_nil] at hl
        omega)
      (by simp)
    simp only [Nat.sub_self, List.replicate_zero, List.append_nil] at hsend ⊢
    simp only [hsend]
    norm_num

end Xmodem

namespace Xmodem

set_option maxRecDepth 40000 in
/-- C9, counterexample: a receiver expecting sequence 1 handed a frame
whose sequence byte is CAN (which differs from the expected sequence, so
the claim requires a CAN write and an `InvalidData` failure) instead fails
with `ConnectionAborted` and writes nothing after its readiness NAK. -/
theorem claim_C9_cex :
    (receive (SOH :: CAN :: 231 :: (List.replicate 128 7 ++ [128]))).1 =
      .error .connectionAborted ∧
    (receive (SOH :: CAN :: 231 ::
      (List.replicate 128 7 ++ [128]))).2.1.output = [NAK] := by
  constructor <;> rfl

set_option maxRecDepth 4000 in
/-- C9, amended: when the sequence byte and complement byte are both
different from CAN, a received frame whose sequence byte is not the
expected sequence 1 or whose complement byte is not 254 makes the receiver
write CAN and `receive` fail with `InvalidData`, with no payload bytes
written to the sink; a sequence or complement byte equal to CAN instead
aborts with `ConnectionAborted` before any CAN is written, as the
counterexample shows. -/
theorem claim_C9 (s c : Nat) (rest : List Nat)
    (hs : s ≠ CAN) (hc : c ≠ CAN) (hmis : ¬(s = 1 ∧ c = 254)) :
    receive (SOH :: s :: c :: rest) =
      (.error .invalidData, ⟨1, false, rest, [NAK, CAN]⟩, []) := by
  rw [receive, receive_with_progress]
  simp only [new, write_byte, List.nil_append]
  rw [receive_loop]
  have hrp : read_packet (List.replicate 128 0)
      ⟨1, false, SOH :: s :: c :: rest, [NAK]⟩ =
      (.error .invalidData, List.replicate 128 0,
        ⟨1, false, rest, [NAK, CAN]⟩) := by
    rw [read_packet]
    rw [if_neg (by simp)]
    have h1 := read_byte_true_ok ⟨1, false, SOH :: s :: c :: rest, [NAK]⟩ SOH
      (s :: c :: rest) (by decide) rfl
    simp only [h1]
    rw [if_neg (by decide : ¬(SOH = EOT))]
    rw [if_neg (show ¬(SOH ≠ SOH) by simp)]
    have h2 := read_byte_true_ok ⟨1, false, s :: c :: rest, [NAK]⟩ s
      (c :: rest) hs rfl
    simp only [h2]
    have h3 := read_byte_true_ok ⟨1, false, c :: rest, [NAK]⟩ c rest hc rfl
    simp only [h3]
    rw [if_pos]
    · simp [write_byte]
    · rcases not_and_or.mp hmis with h | h
      · exact Or.inl h
      · right
        simpa using h
  simp only [recv_try, hrp]

/-- C9, witness: the amended theorem at the claim's own scenario, a
receiver expecting sequence 1 handed a frame carrying sequence 5. -/
theorem claim_C9_witness :
    ((5 : Nat) ≠ CAN ∧ (250 : Nat) ≠ CAN ∧
      ¬((5 : Nat) = 1 ∧ (250 : Nat) = 254)) ∧
    receive (SOH :: 5 :: 250 :: (List.replicate 128 7 ++ [128])) =
      (.error .invalidData,
        ⟨1, false, List.replicate 128 7 ++ [128], [NAK, CAN]⟩, []) :=
  ⟨⟨by decide, by decide, by decide⟩,
    claim_C9 5 250 (List.replicate 128 7 ++ [128]) (by decide) (by decide)
      (by decide)⟩

end Xmodem


namespace Xmodem

theorem receive_loop_partial (data : List Nat) :
    ∀ fuel buf received sink st restIn,
    buf.length = 128 → st.packet < 256 →
    numFrames data ≤ fuel →
    (∀ i, i < numFrames data →
      (st.packet + i) % 256 ≠ CAN ∧ (st.packet + i) % 256 ≠ 231) →
    st.input = sentFrames st.packet data ++ restIn →
    ∃ buf2, buf2.length = 128 ∧
    receive_loop fuel buf received sink st =
      receive_loop (fuel - numFrames data) buf2
        (received + 128 * numFrames data) (sink ++ padTo128 data)
        ⟨(st.packet + numFrames data) % 256, st.started, restIn,
          st.output ++ List.replicate (numFrames data) ACK⟩ := by
  induction data using numFrames.induct with
  | case1 =>
    intro fuel buf received sink st restIn hb hp hfuel hseq hin
    rw [sentFrames] at hin
    simp at hin
    refine ⟨buf, hb, ?_⟩
    have hnum0 : numFrames ([] : List Nat) = 0 := by
      rw [numFrames]
      simp
    have hpad0 : padTo128 ([] : List Nat) = [] := by
      rw [padTo128]
      simp
    rw [hnum0, hpad0]
    simp only [Nat.sub_zero, Nat.mul_zero, Nat.add_zero, List.append_nil,
      List.replicate_zero, Nat.mod_eq_of_lt hp, ← hin]
  | case2 data hne ih =>
    intro fuel buf received sink st restIn hb hp hfuel hseq hin
    have hnf : numFrames data = 1 + numFrames (data.drop 128) := by
      rw [numFrames]
      simp [hne]
    have h24 : st.packet ≠ CAN := by
      have hs := (hseq 0 (by omega)).1
      rwa [Nat.add_zero, Nat.mod_eq_of_lt hp] at hs
    have h231 : 255 - st.packet ≠ CAN := by
      have h0 := (hseq 0 (by omega)).2
      rw [Nat.add_zero, Nat.mod_eq_of_lt hp] at h0
      simp only [CAN] at h0 ⊢
      omega
    rw [sentFrames] at hin
    simp only [if_neg hne, List.append_assoc, List.cons_append,
      List.singleton_append, frame] at hin
    match fuel, (by omega : 1 ≤ fuel) with
    | fuel + 1, _ =>
      rw [receive_loop]
      have hrp := read_packet_data_ok buf
        (data.take 128 ++ List.replicate (128 - (data.take 128).length) 0)
        (sentFrames ((st.packet + 1) % 256) (data.drop 128) ++ restIn)
        st hb (chunk_length data) h24 h231 (by simpa using hin)
      simp only [recv_try, hrp]
      have hplt : ((st.packet + 1) % 256 : Nat) < 256 := by omega
      have hfuel2 : numFrames (data.drop 128) ≤ fuel := by omega
      have hshift : ∀ i, i < numFrames (data.drop 128) →
          ((st.packet + 1) % 256 + i) % 256 ≠ CAN ∧
            ((st.packet + 1) % 256 + i) % 256 ≠ 231 := by
        intro i hi
        have hs := hseq (i + 1) (by omega)
        have heq : ((st.packet + 1) % 256 + i) % 256 =
            (st.packet + (i + 1)) % 256 := by
          rw [Nat.mod_add_mod, Nat.add_assoc, Nat.add_comm 1 i]
        rw [heq]
        exact hs
      obtain ⟨buf2, hb2, hih⟩ := ih fuel
        (data.take 128 ++ List.replicate (128 - (data.take 128).length) 0)
        (received + 128)
        (sink ++ (data.take 128 ++ List.replicate (128 - (data.take 128).length) 0))
        ⟨(st.packet + 1) % 256, st.started,
          sentFrames ((st.packet + 1) % 256) (data.drop 128) ++ restIn,
          st.output ++ [ACK]⟩ restIn
        (chunk_length data) hplt hfuel2 hshift rfl
      refine ⟨buf2, hb2, ?_⟩
      rw [hih]
      have hpad : padTo128 data =
          (data.take 128 ++ List.replicate (128 - (data.take 128).length) 0) ++
            padTo128 (data.drop 128) := by
        rw [padTo128]
        simp [hne]
      have harith : ((st.packet + 1) % 256 + numFrames (data.drop 128)) % 256 =
          (st.packet + (1 + numFrames (data.drop 128))) % 256 := by
        rw [Nat.mod_add_mod, Nat.add_assoc]
      have hrep : List.replicate (1 + numFrames (data.drop 128)) ACK =
          ACK :: List.replicate (numFrames (data.drop 128)) ACK := by
        rw [Nat.add_comm, List.replicate_succ]
      have hfm : fuel + 1 - numFrames data = fuel - numFrames (data.drop 128) := by
        omega
      simp only [hnf, hpad, harith, hrep, hfm, List.append_assoc, Nat.mul_add,
        List.cons_append, List.singleton_append]
      congr 1
      · omega
      · omega

end Xmodem

namespace Xmodem

end Xmodem

namespace Xmodem

theorem read_packet_can_seq (buf rest : List Nat) (st : XSt)
    (hb : buf.length = 128) (hin : st.input = SOH :: CAN :: rest) :
    read_packet buf st =
      (.error .connectionAborted, buf,
        ⟨st.packet, st.started, rest, st.output⟩) := by
  rw [read_packet, if_neg (by omega)]
  have h1 := read_byte_true_ok st SOH (CAN :: rest) (by decide) hin
  simp only [h1]
  rw [if_neg (by decide : ¬(SOH = EOT)), if_neg (show ¬(SOH ≠ SOH) by simp)]
  have h2 := read_byte_true_can
    ⟨st.packet, st.started, CAN :: rest, st.output⟩ rest rfl
  simp only [h2]

theorem receive_loop_can_seq (fuel : Nat) (hf : 0 < fuel)
    (buf : List Nat) (received : Nat) (sink rest : List Nat) (st : XSt)
    (hb : buf.length = 128) (hin : st.input = SOH :: CAN :: rest) :
    (receive_loop fuel buf received sink st).1 = .error .connectionAborted := by
  match fuel, hf with
  | fuel + 1, _ =>
    rw [receive_loop]
    have hrp := read_packet_can_seq buf rest st hb hin
    simp only [recv_try, hrp]

/-- C5, counterexample: the round trip fails for L = 2945.  The sender
happily produces 24 frames and returns `Ok(2945)`, but the 24th frame's
sequence byte is 24 = CAN, which the receiver reads with abort-on-CAN
active: `receive` fed exactly the sender's output fails with
`ConnectionAborted` instead of returning `Ok(128 * ceil(2945/128)) =
Ok(3072)` as the claim requires. -/
theorem claim_C5_cex :
    (transmit (List.replicate 2945 0) (coopInput (List.replicate 2945 0))).1 =
      .ok 2945 ∧
    (receive (sentFrames 1 (List.replicate 2945 0) ++ [EOT, EOT])).1 =
      .error .connectionAborted ∧
    (receive (sentFrames 1 (List.replicate 2945 0) ++ [EOT, EOT])).1 ≠
      .ok (128 * ((2945 + 127) / 128)) := by
  have hnum23 : numFrames (List.replicate 2944 0) = 23 := by
    rw [numFrames_eq, List.length_replicate]
  have hnum24 : numFrames (List.replicate 2945 0) = 24 := by
    rw [numFrames_eq, List.length_replicate]
  have htr : (transmit (List.replicate 2945 0)
      (coopInput (List.replicate 2945 0))).1 = .ok 2945 := by
    rw [transmit_coop]
    rw [List.length_replicate]
  have hsplit : (List.replicate 2945 0 : List Nat) =
      List.replicate 2944 0 ++ List.replicate 1 0 := by
    rw [← List.replicate_add]
  have hsf : sentFrames 1 (List.replicate 2945 0) =
      sentFrames 1 (List.replicate 2944 0) ++
        sentFrames 24 (List.replicate 1 0) := by
    conv_lhs => rw [hsplit]
    rw [sentFrames_append 23 _ _ 1 (by rw [List.length_replicate]) (by omega)]
  have hfl : (sentFrames 1 (List.replicate 2945 0) ++ [EOT, EOT]).length =
      3170 := by
    rw [List.length_append, sentFrames_length, hnum24]
    rfl
  have hsf25 : sentFrames 25 ([] : List Nat) = [] := by
    rw [sentFrames]
    simp
  have hform : sentFrames 24 (List.replicate 1 0) ++ [EOT, EOT] =
      SOH :: CAN :: (231 ::
        ((List.replicate 1 0 ++ List.replicate 127 0) ++
          get_checksum (List.replicate 1 0 ++ List.replicate 127 0) ::
            [EOT, EOT])) := by
    rw [sentFrames]
    simp [frame, CAN, hsf25, List.append_assoc]
  have hrecv : (receive (sentFrames 1 (List.replicate 2945 0) ++
      [EOT, EOT])).1 = .error .connectionAborted := by
    rw [receive, receive_with_progress]
    simp only [new, write_byte, List.nil_append]
    obtain ⟨buf2, hb2, heq⟩ := receive_loop_partial (List.replicate 2944 0)
      ((sentFrames 1 (List.replicate 2945 0) ++ [EOT, EOT]).length + 1)
      (List.replicate 128 0) 0 []
      ⟨1, false, sentFrames 1 (List.replicate 2945 0) ++ [EOT, EOT], [NAK]⟩
      (sentFrames 24 (List.replicate 1 0) ++ [EOT, EOT])
      (by rw [List.length_replicate]) (by simp) (by rw [hnum23, hfl]; omega)
      (by
        intro i hi
        rw [hnum23] at hi
        have hlt : 1 + i < 256 := by omega
        rw [Nat.mod_eq_of_lt hlt]
        simp only [CAN]
        omega)
      (by
        show sentFrames 1 (List.replicate 2945 0) ++ [EOT, EOT] = _
        rw [hsf, List.append_assoc])
    rw [heq]
    simp only [hnum23, hfl, List.nil_append]
    exact receive_loop_can_seq 3148 (by omega) buf2 2944 _ _ _ hb2 hform
  refine ⟨htr, hrecv, ?_⟩
  rw [hrecv]
  simp

/-- C5, amended: the round trip holds for every input of length at most
2944 bytes (23 packets, so that no frame's sequence byte reaches the CAN
value 24, which the receiver would misread as a cancellation): `transmit`
against the cooperative response stream returns `Ok(L)` and emits exactly
the data frames plus the EOT pair; `receive` fed exactly those bytes
answers exactly that cooperative response stream, returns
`Ok(128 * ceil(L/128))`, and its sink holds the original L bytes followed
by zero padding up to the next multiple of 128. -/
theorem claim_C5 (data : List Nat) (hlen : data.length ≤ 2944) :
    transmit data (coopInput data) =
      (.ok data.length,
        ⟨(1 + numFrames data) % 256, true, [],
          sentFrames 1 data ++ [EOT, EOT]⟩) ∧
    receive (sentFrames 1 data ++ [EOT, EOT]) =
      (.ok (128 * numFrames data),
        ⟨(1 + numFrames data) % 256, false, [], coopInput data⟩,
        padTo128 data) ∧
    padTo128 data =
      data ++ List.replicate (128 * numFrames data - data.length) 0 ∧
    128 * numFrames data = 128 * ((data.length + 127) / 128) := by
  have hnf : numFrames data ≤ 23 := by
    rw [numFrames_eq]
    omega
  exact ⟨transmit_coop data, receive_coop data hnf, padTo128_eq data,
    by rw [numFrames_eq]⟩

/-- C5, witness: the amended round trip at the 3-byte input `[1, 2, 3]`. -/
theorem claim_C5_witness :
    ([1, 2, 3] : List Nat).length ≤ 2944 ∧
    (transmit [1, 2, 3] (coopInput [1, 2, 3]) =
      (.ok ([1, 2, 3] : List Nat).length,
        ⟨(1 + numFrames [1, 2, 3]) % 256, true, [],
          sentFrames 1 [1, 2, 3] ++ [EOT, EOT]⟩) ∧
     receive (sentFrames 1 [1, 2, 3] ++ [EOT, EOT]) =
      (.ok (128 * numFrames [1, 2, 3]),
        ⟨(1 + numFrames [1, 2, 3]) % 256, false, [], coopInput [1, 2, 3]⟩,
        padTo128 [1, 2, 3]) ∧
     padTo128 [1, 2, 3] = [1, 2, 3] ++
       List.replicate
         (128 * numFrames [1, 2, 3] - ([1, 2, 3] : List Nat).length) 0 ∧
     128 * numFrames [1, 2, 3] =
       128 * ((([1, 2, 3] : List Nat).length + 127) / 128)) :=
  ⟨by simp, claim_C5 [1, 2, 3] (by simp)⟩

end Xmodem
